import Mathlib

/-!
Verification of the worker-thread layer of NMController_web
(`threads/managed_thread.py`, `threads/btcinfo_thread.py`,
`threads/udp_thread.py`) against its natural-language specification.

The Python code is shallowly embedded: pure fragments become Lean
functions, the mutable object state becomes explicit state passing, the
external world (clock, network fetches, the spawned OS thread) is an
explicit parameter, and Python `float` arithmetic on prices, rewards and
timestamps is modelled by exact rationals.
-/

/-! ## Python `or`-defaulting and dict primitives -/

/-- Python `x or default` for an optional integer argument: `None` and
`0` are both falsy and select the default (`managed_thread.py` lines
108–109). -/
def pyOr (x : Option Nat) (dflt : Nat) : Nat :=
  match x with
  | none => dflt
  | some v => if v = 0 then dflt else v

/-- Python `d.get(k)` on a dict modelled as an association list with
unique keys. -/
def dictGet {κ ν : Type} [DecidableEq κ] (k : κ) : List (κ × ν) → Option ν
  | [] => none
  | (k', v') :: rest => if k' = k then some v' else dictGet k rest

/-- Python `d.get(k, dflt)`. -/
def dictGetD {κ ν : Type} [DecidableEq κ] (k : κ) (dflt : ν) (t : List (κ × ν)) : ν :=
  (dictGet k t).getD dflt

/-- Python `d[k] = v`: replace the entry for `k`, or append a new one. -/
def dictSet {κ ν : Type} [DecidableEq κ] (k : κ) (v : ν) : List (κ × ν) → List (κ × ν)
  | [] => [(k, v)]
  | (k', v') :: rest => if k' = k then (k, v) :: rest else (k', v') :: dictSet k v rest

/-- Python `del d[k]`: drop the entry for `k` (dict keys are unique, so
dropping every pair with key `k` agrees with deleting the single entry). -/
def dictDel {κ ν : Type} [DecidableEq κ] (k : κ) : List (κ × ν) → List (κ × ν)
  | [] => []
  | (k', v') :: rest => if k' = k then dictDel k rest else (k', v') :: dictDel k rest

/-! ## `managed_thread.py`: thread states and lifecycle -/

/-- `ThreadState` enumeration (`managed_thread.py` lines 27–31). -/
inductive ThreadState where
  | STOPPED
  | RUNNING
  | PAUSED
  | RESTARTING
deriving DecidableEq

/-- The control fields of `ManagedThread` that the lifecycle operations
read and write: the stop event, the pause event and the guarded state.
The spawned OS thread itself is external; its observable interaction
with `stop` (whether `join` returned with the thread still alive) is
passed in as an oracle. -/
structure MThread where
  stop_event : Bool
  pause_event : Bool
  state : ThreadState
deriving DecidableEq

/-- `ManagedThread.get_state` (lines 126–128): read the state under the
lock. -/
def get_state (st : MThread) : ThreadState :=
  st.state

/-- `ManagedThread.stop` (lines 61–68): set the stop event, set the
pause event, `join` with timeout (whether the thread is still alive
afterwards is the oracle `aliveAfterJoin`; if so only a warning is
logged, returned as the `Bool` component), then set the state to
STOPPED unconditionally. -/
def stop (st : MThread) (aliveAfterJoin : Bool) : MThread × Bool :=
  let st := { st with stop_event := true, pause_event := true }
  ({ st with state := ThreadState.STOPPED }, aliveAfterJoin)

/-- The timing fields of `ManagedThread` used by `needs_update`. -/
structure ThreadTimes where
  last_update : ℚ
  update_seconds : ℚ
deriving DecidableEq

/-- The `__init__` initialization of the timing fields
(`managed_thread.py` line 38): `last_update = time.time() -
update_seconds - 1`, which forces an immediate first update. -/
def initThreadTimes (update_seconds now : ℚ) : ThreadTimes :=
  { last_update := now - update_seconds - 1, update_seconds := update_seconds }

/-- `ManagedThread.needs_update` (lines 101–105): compare the elapsed
time against the interval and return the verdict.  The method reads but
never writes `last_update`; the returned state is therefore the input
state. -/
def needs_update (st : ThreadTimes) (now : ℚ) : Bool × ThreadTimes :=
  (decide (now - st.last_update ≥ st.update_seconds), st)

/-! ## `managed_thread.py`: retry_operation -/

/-- Outcome of one invocation of the operation passed to
`retry_operation`: normal return, one of the two recoverable
exceptions (`UpdateFailedError`, `OperationFailedError`,
`managed_thread.py` lines 16–23), or any other exception. -/
inductive OpOutcome where
  | ok
  | updateFailed
  | operationFailed
  | otherError (e : String)
deriving DecidableEq

/-- An outcome raised by one of the two recoverable exception classes. -/
def Retryable (o : OpOutcome) : Prop :=
  o = OpOutcome.updateFailed ∨ o = OpOutcome.operationFailed

instance (o : OpOutcome) : Decidable (Retryable o) := by
  unfold Retryable; infer_instance

/-- Result of `retry_operation`: normal return, the final
`ThreadError` recording the retry budget in its message, or an
exception of an unhandled class propagating out. -/
inductive RetryResult where
  | success
  | threadError (retries : Nat)
  | uncaught (e : String)
deriving DecidableEq

/-- The `while attempt < retries` loop of `retry_operation`
(`managed_thread.py` lines 110–119).  The operation is an oracle giving
the outcome of its `i`-th invocation.  Returns the result together with
the total number of invocations made.  `attempt` is incremented exactly
when a recoverable exception is caught (after the logged sleep, which
has no further observable effect here). -/
def retryLoop (op : Nat → OpOutcome) (retries attempt : Nat) : RetryResult × Nat :=
  if attempt < retries then
    match op attempt with
    | OpOutcome.ok => (RetryResult.success, attempt + 1)
    | OpOutcome.updateFailed => retryLoop op retries (attempt + 1)
    | OpOutcome.operationFailed => retryLoop op retries (attempt + 1)
    | OpOutcome.otherError e => (RetryResult.uncaught e, attempt + 1)
  else (RetryResult.threadError retries, attempt)
termination_by retries - attempt
decreasing_by all_goals omega

/-- `ManagedThread.retry_operation` (lines 107–119): default the
`retries` and `timeout` arguments with Python `or` against the instance
fields, then run the loop.  Returns (result, number of invocations of
`operation`, delay used for each inter-retry sleep). -/
def retry_operation (op : Nat → OpOutcome) (retries timeout : Option Nat)
    (max_retries retry_delay : Nat) : RetryResult × Nat × Nat :=
  let retries := pyOr retries max_retries
  let timeout := pyOr timeout retry_delay
  let r := retryLoop op retries 0
  (r.1, r.2, timeout)

/-! ## `btcinfo_thread.py`: multi-source price fetch with backoff -/

/-- Maximum backoff ceiling, 10 minutes (`btcinfo_thread.py` line 103). -/
def MAX_BACKOFF : ℚ := 600

/-- The backoff tracker `BtcInfoThread._backoff_tracker`: a dict from
source name to the absolute time (a Unix timestamp) before which the
source is skipped. -/
abbrev BackoffTracker : Type := List (String × ℚ)

/-- `backoff_time_calc` (`btcinfo_thread.py` lines 104–107):
`min(time.time() + tracker.get(name, 1) * 2, time.time() + MAX_BACKOFF)`.
Note that the stored value being doubled is the previous absolute
eligible-time, not a penalty duration. -/
def backoff_time_calc (tracker : BackoffTracker) (name : String) (now : ℚ) : ℚ :=
  min (now + dictGetD name 1 tracker * 2) (now + MAX_BACKOFF)

/-- Whether a source is attempted rather than skipped by the backoff
check (`btcinfo_thread.py` lines 248–251): it is skipped exactly when it
has a tracker entry lying in the future (`time.time() < backoff_time`). -/
def backoffEligible (tracker : BackoffTracker) (now : ℚ) (name : String) : Bool :=
  match dictGet name tracker with
  | none => true
  | some t => decide (¬ now < t)

/-- The `for source in sources` loop of `BtcInfoThread.get_btc_price`
(`btcinfo_thread.py` lines 246–275) over the already-reordered list of
source names.  The network fetch, HTTP status check, JSON decode and
parser of each source are external; `outcome name = some v` means that
chain succeeds with parsed value `v`, `none` means it raises one of the
caught exception classes.  Returns the `(name, value)` result together
with the updated `_last_successful_api` and `_backoff_tracker`. -/
def fetchLoop (outcome : String → Option ℚ) (now : ℚ) :
    List String → Option String → BackoffTracker →
    (String × ℚ) × Option String × BackoffTracker
  | [], last, tracker => (("", 0), last, tracker)
  | s :: rest, last, tracker =>
    if backoffEligible tracker now s then
      match outcome s with
      | some v => ((s, v), some s, dictDel s tracker)
      | none => fetchLoop outcome now rest last (dictSet s (backoff_time_calc tracker s now) tracker)
    else
      fetchLoop outcome now rest last tracker

/-- The reordering `sorted(BTC_PRICE_API_SOURCES, key=lambda s:
s["name"] != _last_successful_api)` (`btcinfo_thread.py` line 245).
Python `sorted` is stable and the key is Boolean (`False < True`), so
the result is exactly: the sources whose name equals the last
successful one, followed by all the others in their configured order. -/
def reorderSources (sources : List String) (last : Option String) : List String :=
  sources.filter (fun s => some s = last) ++ sources.filter (fun s => ¬ some s = last)

/-- `BtcInfoThread.get_btc_price` (`btcinfo_thread.py` lines 243–275):
reorder the source names by the last successful source, then run the
fetch loop. -/
def get_btc_price (sources : List String) (outcome : String → Option ℚ)
    (last : Option String) (tracker : BackoffTracker) (now : ℚ) :
    (String × ℚ) × Option String × BackoffTracker :=
  fetchLoop outcome now (reorderSources sources last) last tracker

/-- The first source of a list that is both eligible (not backed off at
`now` under `tracker`) and whose fetch-and-parse chain succeeds,
together with its parsed value.  This is the specification-side notion
used to state the contract of `get_btc_price`. -/
def firstEligibleSuccess (outcome : String → Option ℚ) (tracker : BackoffTracker)
    (now : ℚ) : List String → Option (String × ℚ)
  | [] => none
  | s :: rest =>
    if backoffEligible tracker now s then
      match outcome s with
      | some v => some (s, v)
      | none => firstEligibleSuccess outcome tracker now rest
    else
      firstEligibleSuccess outcome tracker now rest

/-! ## `btcinfo_thread.py`: block reward cycle and cache -/

/-- Python `round(x, 2)` at the rational level: scale by 100, round
half to even (banker's rounding), and scale back. -/
def pyRound2 (x : ℚ) : ℚ :=
  let f : ℤ := ⌊x * 100⌋
  let r : ℚ := x * 100 - f
  let n : ℤ :=
    if r < 1 / 2 then f
    else if 1 / 2 < r then f + 1
    else if f % 2 = 0 then f else f + 1
  (n : ℚ) / 100

/-- The `LastKnownGoodSnapshot`: the `BtcInfoThread.cache` dict
(`btcinfo_thread.py` lines 159–164), holding the last fully cached
`{btc_price_source, btc_price, block_reward, block_reward_value}`. -/
structure BtcCache where
  btc_price_source : String
  btc_price : ℚ
  block_reward : ℚ
  block_reward_value : ℚ
deriving DecidableEq

/-- The fields of `BtcInfoThread` read and written by
`get_btc_block_reward_value`: the four exposed values and the cache. -/
structure BtcState where
  btc_price_source : String
  btc_price : ℚ
  block_reward : ℚ
  block_reward_value : ℚ
  cache : BtcCache
deriving DecidableEq

/-- The exposed tuple `(btc_price_source, btc_price, block_reward,
block_reward_value)` of the worker. -/
def exposedTuple (st : BtcState) : String × ℚ × ℚ × ℚ :=
  (st.btc_price_source, st.btc_price, st.block_reward, st.block_reward_value)

/-- The tuple stored in a cache value. -/
def cacheTuple (c : BtcCache) : String × ℚ × ℚ × ℚ :=
  (c.btc_price_source, c.btc_price, c.block_reward, c.block_reward_value)

/-- `BtcInfoThread.restore_from_cache` (`btcinfo_thread.py` lines
216–222): copy all four cached values back into the exposed fields. -/
def restore_from_cache (st : BtcState) : BtcState :=
  { st with
    btc_price_source := st.cache.btc_price_source
    btc_price := st.cache.btc_price
    block_reward := st.cache.block_reward
    block_reward_value := st.cache.block_reward_value }

/-- The block reward computed from a block height (`btcinfo_thread.py`
lines 190–192): `halvings = height // 210000`, `reward = 50 / 2 **
halvings` (Python `//` on non-negative integers is `Nat` division). -/
def blockRewardCalc (height : Nat) : ℚ :=
  50 / 2 ^ (height / 210000)

/-- `BtcInfoThread.get_btc_block_reward_value` (`btcinfo_thread.py`
lines 178–222).  `priceResult` is the pair returned by
`get_btc_price`, which never raises: on total failure of all sources it
returns `('', 0.0)` rather than an exception, so the assignment to the
price fields always happens.  `heightResult` is the outcome of the
block-height fetch chain (`requests.get`, `raise_for_status`,
`int(...)`): `some h` on success, `none` when it raises any of the
caught exception classes, in which case `restore_from_cache` runs.  On
success all four exposed fields and the cache are written. -/
def get_btc_block_reward_value (st : BtcState) (priceResult : String × ℚ)
    (heightResult : Option Nat) : BtcState :=
  let st := { st with btc_price_source := priceResult.1, btc_price := priceResult.2 }
  match heightResult with
  | none => restore_from_cache st
  | some h =>
    let reward := blockRewardCalc h
    let value := pyRound2 (reward * st.btc_price)
    { st with
      block_reward := reward
      block_reward_value := value
      cache :=
        { btc_price_source := st.btc_price_source
          btc_price := st.btc_price
          block_reward := reward
          block_reward_value := value } }

/-! ## `udp_thread.py`: process_data -/

/-- A JSON value as the UDP listener observes it after `json.loads`:
strings, numbers (JSON decimals, modelled like the rest of the file's
numeric data as exact rationals), booleans, null, arrays and objects. -/
inductive JVal where
  | str (s : String)
  | num (n : ℚ)
  | bool (b : Bool)
  | null
  | arr (elems : List JVal)
  | obj (fields : List (String × JVal))

/-- Python truthiness of a JSON value (the `if not ip:` guard):
`None`, `False`, zero, the empty string and empty containers are
falsy. -/
def jtruthy : JVal → Bool
  | JVal.str s => s ≠ ""
  | JVal.num n => n ≠ 0
  | JVal.bool b => b
  | JVal.null => false
  | JVal.arr l => !l.isEmpty
  | JVal.obj l => !l.isEmpty

/-- Whether a JSON value is hashable in Python: lists and dicts are
not, and using one as a dict key raises `TypeError`. -/
def jhashable : JVal → Bool
  | JVal.arr _ => false
  | JVal.obj _ => false
  | _ => true

/-- Python `bool` is a subclass of `int`, so as dict keys `True` and
`1` (and `False` and `0`) coincide; canonicalize booleans to numbers
before comparing keys. -/
def keyCanon : JVal → JVal
  | JVal.bool b => JVal.num (if b then 1 else 0)
  | v => v

/-- Equality of canonicalized scalar JSON values: strings by content,
numbers by value, null only to itself, never across types. -/
def scalarEq : JVal → JVal → Bool
  | JVal.str x, JVal.str y => x == y
  | JVal.num x, JVal.num y => x == y
  | JVal.null, JVal.null => true
  | _, _ => false

/-- Python `==` as it acts on dict keys: both operands hashable and
equal after canonicalizing booleans to numbers (`True == 1`,
`False == 0`).  Unhashable values never occur as stored keys, so the
equality holding for no unhashable operand is unobservable. -/
def pyKeyEq (a b : JVal) : Bool :=
  jhashable a && jhashable b && scalarEq (keyCanon a) (keyCanon b)

/-- A decoded JSON object (`json.loads` result), modelled as an
association list; its keys are JSON object keys, which are always
strings. -/
abbrev JsonObj : Type := List (String × JVal)

/-- The miner map `UdpThread.nmminer_map`: a Python dict keyed by the
value of the ip field, with Python `==` as key equality. -/
abbrev MinerMap : Type := List (JVal × JsonObj)

/-- Python dict lookup on the miner map: the entry whose key is
Python-equal to `k`. -/
def pyDictGet (k : JVal) : MinerMap → Option JsonObj
  | [] => none
  | (k', v') :: rest => if pyKeyEq k' k then some v' else pyDictGet k rest

/-- Python dict assignment `m[k] = v` on the miner map: replace the
value of the entry whose key is Python-equal to `k` (keeping the
original key object, as Python does), or append a new entry. -/
def pyDictSet (k : JVal) (v : JsonObj) : MinerMap → MinerMap
  | [] => [(k, v)]
  | (k', v') :: rest =>
    if pyKeyEq k' k then (k', v) :: rest else (k', v') :: pyDictSet k v rest

/-- `UdpThread.process_data` (`udp_thread.py` lines 73–96).  `decoded`
is the result of `json.loads(data.decode('utf-8'))`: `none` when
decoding raises (or the result is not an object, so that `.get` raises
`AttributeError`, caught by the generic handler), `some r` otherwise.
`ts` is the formatted local receipt time.  A record whose ip value is
truthy but unhashable (a JSON array or object) makes the map
assignment `self.nmminer_map[ip] = json_data` raise `TypeError`, which
the generic `except Exception` at line 95 catches, leaving the map
unchanged.  Every exception path is caught and logged, so the function
is total and returns the (possibly unchanged) map. -/
def process_data (decoded : Option JsonObj) (ts : String) (m : MinerMap) : MinerMap :=
  match decoded with
  | none => m
  | some r =>
    match dictGet "ip" r with
    | none => m
    | some ipv =>
      if jtruthy ipv then
        if jhashable ipv then
          pyDictSet ipv (dictSet "UpdateTime" (JVal.str ts) r) m
        else
          m
      else
        m

/-! ## Concrete sample data used by witnesses and counterexamples -/

/-- A sample last-known-good snapshot with all fields distinct from the
failure sentinel values. -/
def sampleCache : BtcCache :=
  { btc_price_source := "Bitstamp", btc_price := 50000,
    block_reward := 25 / 8, block_reward_value := 156250 }

/-- A sample worker state whose exposed fields agree with its cache. -/
def sampleBtcState : BtcState :=
  { btc_price_source := "Bitstamp", btc_price := 50000,
    block_reward := 25 / 8, block_reward_value := 156250,
    cache := sampleCache }

/-- A fetch outcome in which every source fails. -/
def failOutcome : String → Option ℚ := fun _ => none

/-- A fetch outcome in which only source C succeeds. -/
def abcOutcome : String → Option ℚ := fun s => if s = "C" then some 47000 else none

/-- An operation that fails twice with a recoverable error, then succeeds. -/
def twiceFailOp : Nat → OpOutcome :=
  fun i => if i < 2 then OpOutcome.updateFailed else OpOutcome.ok

/-- An operation that always fails with a recoverable error. -/
def alwaysFailOp : Nat → OpOutcome := fun _ => OpOutcome.operationFailed

/-- An operation that fails once recoverably, then raises an unhandled
exception. -/
def boomOp : Nat → OpOutcome :=
  fun i => if i = 0 then OpOutcome.updateFailed else OpOutcome.otherError "boom"

/-- A sample decoded miner packet with a truthy ip field. -/
def sampleRecord : JsonObj :=
  [("ip", JVal.str "10.0.0.1"), ("HashRate", JVal.num 78)]

/-- A sample miner map holding one record for a different miner. -/
def sampleMap : MinerMap :=
  [(JVal.str "10.0.0.2", [("ip", JVal.str "10.0.0.2")])]

/-- A sample decoded packet whose ip value is the boolean True, which
Python treats as the same dict key as 1. -/
def boolIpRecord : JsonObj := [("ip", JVal.bool true)]

/-- A sample miner map holding one record under the numeric key 1. -/
def numKeyMap : MinerMap := [(JVal.num 1, [("ip", JVal.num 1)])]

/-- A sample decoded packet whose ip value is a non-empty JSON array:
truthy but unhashable. -/
def arrIpRecord : JsonObj := [("ip", JVal.arr [JVal.num 1])]

theorem dictGet_dictSet_self {κ ν : Type} [DecidableEq κ] (k : κ) (v : ν)
    (t : List (κ × ν)) : dictGet k (dictSet k v t) = some v := by
  induction t with
  | nil => simp [dictSet, dictGet]
  | cons p rest ih =>
    obtain ⟨k', v'⟩ := p
    by_cases h : k' = k <;> simp [dictSet, dictGet, h, ih]

theorem dictGet_dictSet_ne {κ ν : Type} [DecidableEq κ] {k k' : κ} (v : ν)
    (t : List (κ × ν)) (h : k' ≠ k) :
    dictGet k' (dictSet k v t) = dictGet k' t := by
  have hne : k ≠ k' := Ne.symm h
  induction t with
  | nil => simp [dictSet, dictGet, hne]
  | cons p rest ih =>
    obtain ⟨k₀, v₀⟩ := p
    by_cases hk : k₀ = k
    · subst hk
      simp [dictSet, dictGet, hne]
    · simp [dictSet, dictGet, hk, ih]

theorem dictGet_dictDel_self {κ ν : Type} [DecidableEq κ] (k : κ)
    (t : List (κ × ν)) : dictGet k (dictDel k t) = none := by
  induction t with
  | nil => rfl
  | cons p rest ih =>
    obtain ⟨k₀, v₀⟩ := p
    by_cases hk : k₀ = k <;> simp [dictDel, dictGet, hk, ih]

theorem dictGet_dictDel_ne {κ ν : Type} [DecidableEq κ] {k k' : κ}
    (t : List (κ × ν)) (h : k' ≠ k) :
    dictGet k' (dictDel k t) = dictGet k' t := by
  induction t with
  | nil => rfl
  | cons p rest ih =>
    obtain ⟨k₀, v₀⟩ := p
    by_cases hk : k₀ = k
    · subst hk
      simp [dictDel, dictGet, Ne.symm h, ih]
    · simp [dictDel, dictGet, hk, ih]

/-! ## Helper lemmas about the retry loop -/

theorem retryLoop_calls_le (op : Nat → OpOutcome) (retries : Nat) :
    ∀ n attempt, retries - attempt = n → attempt ≤ retries →
    (retryLoop op retries attempt).2 ≤ retries := by
  intro n
  induction n with
  | zero =>
    intro attempt h0 hle
    have : ¬ attempt < retries := by omega
    rw [retryLoop, if_neg this]
    exact hle
  | succ k ih =>
    intro attempt hk hle
    have hlt : attempt < retries := by omega
    rw [retryLoop, if_pos hlt]
    cases op attempt with
    | ok => simpa using hlt
    | updateFailed => exact ih (attempt + 1) (by omega) (by omega)
    | operationFailed => exact ih (attempt + 1) (by omega) (by omega)
    | otherError e => simpa using hlt

theorem retryLoop_success (op : Nat → OpOutcome) (retries : Nat) :
    ∀ m attempt,
    (∀ i, attempt ≤ i → i < attempt + m → Retryable (op i)) →
    op (attempt + m) = OpOutcome.ok → attempt + m < retries →
    retryLoop op retries attempt = (RetryResult.success, attempt + m + 1) := by
  intro m
  induction m with
  | zero =>
    intro attempt _ hok hlt
    rw [retryLoop, if_pos (by omega : attempt < retries)]
    simp only [Nat.add_zero] at hok
    rw [hok]
  | succ k ih =>
    intro attempt hfail hok hlt
    have hlt' : attempt < retries := by omega
    rw [retryLoop, if_pos hlt']
    have hr : Retryable (op attempt) := hfail attempt (Nat.le_refl _) (by omega)
    rw [show attempt + (k + 1) = attempt + 1 + k from by omega] at hok hlt ⊢
    rcases hr with h | h <;> rw [h] <;>
      exact ih (attempt + 1) (fun i hi hi' => hfail i (by omega) (by omega)) hok hlt

theorem retryLoop_exhaust (op : Nat → OpOutcome) (retries : Nat)
    (hall : ∀ i, i < retries → Retryable (op i)) :
    ∀ n attempt, retries - attempt = n → attempt ≤ retries →
    retryLoop op retries attempt = (RetryResult.threadError retries, retries) := by
  intro n
  induction n with
  | zero =>
    intro attempt h0 hle
    have heq : attempt = retries := by omega
    rw [retryLoop, if_neg (by omega), heq]
  | succ k ih =>
    intro attempt hk hle
    have hlt : attempt < retries := by omega
    rw [retryLoop, if_pos hlt]
    rcases hall attempt hlt with h | h <;> rw [h] <;>
      exact ih (attempt + 1) (by omega) (by omega)

theorem retryLoop_uncaught (op : Nat → OpOutcome) (retries : Nat) (e : String) :
    ∀ m attempt,
    (∀ i, attempt ≤ i → i < attempt + m → Retryable (op i)) →
    op (attempt + m) = OpOutcome.otherError e → attempt + m < retries →
    retryLoop op retries attempt = (RetryResult.uncaught e, attempt + m + 1) := by
  intro m
  induction m with
  | zero =>
    intro attempt _ hraise hlt
    rw [retryLoop, if_pos (by omega : attempt < retries)]
    simp only [Nat.add_zero] at hraise
    rw [hraise]
  | succ k ih =>
    intro attempt hfail hraise hlt
    have hlt' : attempt < retries := by omega
    rw [retryLoop, if_pos hlt']
    have hr : Retryable (op attempt) := hfail attempt (Nat.le_refl _) (by omega)
    rw [show attempt + (k + 1) = attempt + 1 + k from by omega] at hraise hlt ⊢
    rcases hr with h | h <;> rw [h] <;>
      exact ih (attempt + 1) (fun i hi hi' => hfail i (by omega) (by omega)) hraise hlt

/-! ## Helper lemmas about the failover fetch loop -/

theorem backoffEligible_dictSet_ne (t : BackoffTracker) (now w : ℚ) {s x : String}
    (h : x ≠ s) : backoffEligible (dictSet s w t) now x = backoffEligible t now x := by
  unfold backoffEligible
  rw [dictGet_dictSet_ne w t h]

theorem fetchLoop_fst (outcome : String → Option ℚ) (now : ℚ) :
    ∀ (lst : List String) (last : Option String) (t t₀ : BackoffTracker),
    lst.Nodup →
    (∀ x ∈ lst, backoffEligible t now x = backoffEligible t₀ now x) →
    (fetchLoop outcome now lst last t).1
      = (firstEligibleSuccess outcome t₀ now lst).getD ("", 0) := by
  intro lst
  induction lst with
  | nil => intro last t t₀ _ _; rfl
  | cons s rest ih =>
    intro last t t₀ hnd hag
    have hs : backoffEligible t now s = backoffEligible t₀ now s :=
      hag s (List.mem_cons_self s rest)
    have hsrest : s ∉ rest := (List.nodup_cons.mp hnd).1
    have hndrest : rest.Nodup := (List.nodup_cons.mp hnd).2
    by_cases he : backoffEligible t₀ now s = true
    · cases ho : outcome s with
      | some v =>
        simp only [fetchLoop, firstEligibleSuccess, hs, he, ho, if_true]
        rfl
      | none =>
        simp only [fetchLoop, firstEligibleSuccess, hs, he, ho, if_true]
        refine ih last _ t₀ hndrest (fun x hx => ?_)
        have hxns : x ≠ s := by
          intro hxs
          rw [hxs] at hx
          exact hsrest hx
        exact (backoffEligible_dictSet_ne t now _ hxns).trans
          (hag x (List.mem_cons_of_mem s hx))
    · have he' : backoffEligible t₀ now s = false := by
        revert he; cases backoffEligible t₀ now s <;> simp
      simp only [fetchLoop, firstEligibleSuccess, hs, he', Bool.false_eq_true, if_false]
      exact ih last t t₀ hndrest (fun x hx => hag x (List.mem_cons_of_mem s hx))

theorem fetchLoop_success (outcome : String → Option ℚ) (now : ℚ) :
    ∀ (lst : List String) (last : Option String) (t : BackoffTracker) (s : String) (v : ℚ),
    (fetchLoop outcome now lst last t).1 = (s, v) → s ≠ "" →
    (fetchLoop outcome now lst last t).2.1 = some s
    ∧ dictGet s (fetchLoop outcome now lst last t).2.2 = none := by
  intro lst
  induction lst with
  | nil =>
    intro last t s v hres hne
    exact absurd (congrArg Prod.fst hres).symm hne
  | cons x rest ih =>
    intro last t s v hres hne
    by_cases he : backoffEligible t now x = true
    · cases ho : outcome x with
      | some w =>
        simp only [fetchLoop, he, ho, if_true] at hres ⊢
        injection hres with h1 h2
        subst h1
        exact ⟨rfl, dictGet_dictDel_self _ t⟩
      | none =>
        simp only [fetchLoop, he, ho, if_true] at hres ⊢
        exact ih last _ s v hres hne
    · have he' : backoffEligible t now x = false := by
        revert he; cases backoffEligible t now x <;> simp
      simp only [fetchLoop, he', Bool.false_eq_true, if_false] at hres ⊢
      exact ih last t s v hres hne

theorem reorderSources_nodup (sources : List String) (last : Option String)
    (h : sources.Nodup) : (reorderSources sources last).Nodup := by
  unfold reorderSources
  refine (List.Nodup.filter _ h).append (List.Nodup.filter _ h) ?_
  intro a ha hb
  have h1 := List.of_mem_filter ha
  have h2 := List.of_mem_filter hb
  simp only [decide_eq_true_eq] at h1 h2
  exact h2 h1

/-! ## Helper lemmas about Python dict key equality -/

theorem scalarEq_eq {x y : JVal} (h : scalarEq x y = true) : x = y := by
  cases x <;> cases y <;> simp_all [scalarEq]

theorem scalarEq_canon_self (a : JVal) (h : jhashable a = true) :
    scalarEq (keyCanon a) (keyCanon a) = true := by
  cases a <;> simp_all [jhashable, keyCanon, scalarEq]

theorem pyKeyEq_refl (a : JVal) (h : jhashable a = true) : pyKeyEq a a = true := by
  simp [pyKeyEq, h, scalarEq_canon_self a h]

theorem pyKeyEq_symm {a b : JVal} (h : pyKeyEq a b = true) : pyKeyEq b a = true := by
  simp only [pyKeyEq, Bool.and_eq_true] at h ⊢
  obtain ⟨⟨ha, hb⟩, hs⟩ := h
  exact ⟨⟨hb, ha⟩, (scalarEq_eq hs) ▸ scalarEq_canon_self a ha⟩

theorem pyKeyEq_trans {a b c : JVal} (h1 : pyKeyEq a b = true)
    (h2 : pyKeyEq b c = true) : pyKeyEq a c = true := by
  simp only [pyKeyEq, Bool.and_eq_true] at h1 h2 ⊢
  obtain ⟨⟨ha, hb⟩, hs1⟩ := h1
  obtain ⟨⟨_, hc⟩, hs2⟩ := h2
  refine ⟨⟨ha, hc⟩, ?_⟩
  rw [scalarEq_eq hs1, scalarEq_eq hs2]
  exact scalarEq_canon_self c hc

theorem pyDictGet_pyDictSet_eqkey (k ipv : JVal) (v : JsonObj) (m : MinerMap)
    (hk : pyKeyEq k ipv = true) :
    pyDictGet k (pyDictSet ipv v m) = some v := by
  induction m with
  | nil => simp [pyDictSet, pyDictGet, pyKeyEq_symm hk]
  | cons p rest ih =>
    obtain ⟨k₀, v₀⟩ := p
    by_cases h₀ : pyKeyEq k₀ ipv = true
    · have hk₀ : pyKeyEq k₀ k = true := pyKeyEq_trans h₀ (pyKeyEq_symm hk)
      simp [pyDictSet, pyDictGet, h₀, hk₀]
    · have h₀f : pyKeyEq k₀ ipv = false := by
        revert h₀; cases pyKeyEq k₀ ipv <;> simp
      have hk₀f : pyKeyEq k₀ k = false := by
        cases hh : pyKeyEq k₀ k with
        | true => exact absurd (pyKeyEq_trans hh hk) (by simp [h₀f])
        | false => rfl
      simp [pyDictSet, pyDictGet, h₀f, hk₀f, ih]

theorem pyDictGet_pyDictSet_nekey (k ipv : JVal) (v : JsonObj) (m : MinerMap)
    (hne : pyKeyEq k ipv = false) :
    pyDictGet k (pyDictSet ipv v m) = pyDictGet k m := by
  have hsymf : pyKeyEq ipv k = false := by
    cases hh : pyKeyEq ipv k with
    | true => exact absurd (pyKeyEq_symm hh) (by simp [hne])
    | false => rfl
  induction m with
  | nil => simp [pyDictSet, pyDictGet, hsymf]
  | cons p rest ih =>
    obtain ⟨k₀, v₀⟩ := p
    by_cases h₀ : pyKeyEq k₀ ipv = true
    · have hk₀f : pyKeyEq k₀ k = false := by
        cases hh : pyKeyEq k₀ k with
        | true =>
          have hcontra : pyKeyEq k ipv = true := pyKeyEq_trans (pyKeyEq_symm hh) h₀
          rw [hcontra] at hne
          exact absurd hne (by simp)
        | false => rfl
      simp [pyDictSet, pyDictGet, h₀, hk₀f]
    · have h₀f : pyKeyEq k₀ ipv = false := by
        revert h₀; cases pyKeyEq k₀ ipv <;> simp
      simp [pyDictSet, pyDictGet, h₀f, ih]

/-! ## Claim theorems -/

/-- C1 (counterexample to the claim as stated): when every price source
fails, `get_btc_price` returns the sentinel `("", 0.0)` instead of
raising, so the cycle proceeds: with a succeeding height fetch the cache
is overwritten and the exposed tuple differs from the previous
last-known-good snapshot, although the price step of the cycle failed. -/
theorem btc_cycle_claim_counterexample :
    (get_btc_price ["Bitstamp"] failOutcome none [] 1000).1 = ("", 0)
    ∧ (get_btc_block_reward_value sampleBtcState ("", 0) (some 840000)).cache
        ≠ sampleBtcState.cache
    ∧ exposedTuple (get_btc_block_reward_value sampleBtcState ("", 0) (some 840000))
        ≠ cacheTuple sampleBtcState.cache := by
  refine ⟨?_, ?_, ?_⟩
  · simp [get_btc_price, reorderSources, fetchLoop, backoffEligible, dictGet, failOutcome]
  · simp [get_btc_block_reward_value, sampleBtcState, sampleCache]
  · simp [get_btc_block_reward_value, exposedTuple, cacheTuple, sampleBtcState, sampleCache]

/-- C1 (amended): if the block-height fetch chain raises, the whole
exposed tuple is atomically replaced by the cached snapshot and the
snapshot itself is unchanged; whenever the height fetch succeeds —
price sentinel included — the snapshot is overwritten with the freshly
computed tuple and the exposed tuple equals it. -/
theorem btc_cycle_cache_fallback (st : BtcState) (pr : String × ℚ) (h : Nat) :
    (exposedTuple (get_btc_block_reward_value st pr none) = cacheTuple st.cache
      ∧ (get_btc_block_reward_value st pr none).cache = st.cache)
    ∧ ((get_btc_block_reward_value st pr (some h)).cache
        = { btc_price_source := pr.1, btc_price := pr.2,
            block_reward := blockRewardCalc h,
            block_reward_value := pyRound2 (blockRewardCalc h * pr.2) }
      ∧ exposedTuple (get_btc_block_reward_value st pr (some h))
        = cacheTuple (get_btc_block_reward_value st pr (some h)).cache) :=
  ⟨⟨rfl, rfl⟩, ⟨rfl, rfl⟩⟩

/-- C2 (counterexample to the claim as stated): `needs_update` never
records the current time.  Constructed with interval 10 at time 100,
the first call at time 100 returns true but leaves `last_update` at 89
instead of recording 100, and a call one second later still returns
true instead of the claimed false. -/
theorem needs_update_claim_counterexample :
    (needs_update (initThreadTimes 10 100) 100).1 = true
    ∧ (needs_update (initThreadTimes 10 100) 100).2.last_update = 89
    ∧ (89 : ℚ) ≠ 100
    ∧ (needs_update (initThreadTimes 10 100) 101).1 = true := by
  refine ⟨?_, ?_, ?_, ?_⟩
  · norm_num [needs_update, initThreadTimes]
  · norm_num [needs_update, initThreadTimes]
  · norm_num
  · norm_num [needs_update, initThreadTimes]

/-- C2 (amended): `needs_update` returns true exactly when the elapsed
time since `last_update` is at least the configured interval, and it
has no side effects in either branch — it never writes `last_update`.
Because construction sets `last_update` to interval-plus-one seconds in
the past, the first call after construction returns true for every
interval, and calls keep returning true until `last_update` is changed
by other code. -/
theorem needs_update_amended (st : ThreadTimes) (now : ℚ) :
    ((needs_update st now).1 = true ↔ st.update_seconds ≤ now - st.last_update)
    ∧ (needs_update st now).2 = st
    ∧ (∀ u t0 : ℚ, (needs_update (initThreadTimes u t0) t0).1 = true) := by
  refine ⟨by simp [needs_update, ge_iff_le], rfl, ?_⟩
  intro u t0
  simp only [needs_update, initThreadTimes, decide_eq_true_eq, ge_iff_le]
  linarith

/-- C3 (evaluation of the code at the failing input): source A fails at
time 1000000 with an empty tracker, so its entry becomes 1000002, a
2-second penalty.  When A fails again at time 1000002 — the moment it
becomes eligible — the code doubles the stored absolute timestamp and
caps, storing 1000602 = now + MAX_BACKOFF.  The penalty jumps from 2 s
straight to the 600 s ceiling rather than growing exponentially to 4 s
(which would be now + 2 * 2). -/
theorem backoff_growth_code_eval :
    (get_btc_price ["A"] failOutcome none [] 1000000).2.2 = [("A", 1000002)]
    ∧ backoffEligible [("A", 1000002)] 1000002 "A" = true
    ∧ (get_btc_price ["A"] failOutcome none [("A", 1000002)] 1000002).2.2
        = [("A", 1000602)]
    ∧ (1000602 : ℚ) = 1000002 + MAX_BACKOFF
    ∧ (1000602 : ℚ) ≠ 1000002 + 2 * 2 := by
  refine ⟨?_, ?_, ?_, ?_, ?_⟩
  · simp [get_btc_price, reorderSources, fetchLoop, backoffEligible, dictGet, dictSet,
      backoff_time_calc, dictGetD, MAX_BACKOFF, failOutcome, min_def]
    norm_num
  · simp [backoffEligible, dictGet]
  · simp [get_btc_price, reorderSources, fetchLoop, backoffEligible, dictGet, dictSet,
      backoff_time_calc, dictGetD, MAX_BACKOFF, failOutcome, min_def]
    norm_num
  · norm_num [MAX_BACKOFF]
  · norm_num

/-- C4: `get_btc_price` tries the most recently successful source
first and the remaining sources in their configured relative order
(the reordered list), skips any source whose backoff eligible-time lies
in the future, and returns the name and parsed value of the first
attempted source whose fetch chain succeeds — or `("", 0.0)` when every
source fails or is backed off.  On a successful return the winning
source becomes the remembered preferred source and loses its backoff
entry. -/
theorem get_btc_price_contract (sources : List String) (outcome : String → Option ℚ)
    (last : Option String) (tracker : BackoffTracker) (now : ℚ)
    (hnd : sources.Nodup) :
    (get_btc_price sources outcome last tracker now).1
      = (firstEligibleSuccess outcome tracker now (reorderSources sources last)).getD ("", 0)
    ∧ (∀ s v, (get_btc_price sources outcome last tracker now).1 = (s, v) → s ≠ "" →
        (get_btc_price sources outcome last tracker now).2.1 = some s
        ∧ dictGet s (get_btc_price sources outcome last tracker now).2.2 = none) := by
  constructor
  · exact fetchLoop_fst outcome now (reorderSources sources last) last tracker tracker
      (reorderSources_nodup sources last hnd) (fun x _ => rfl)
  · intro s v hres hne
    exact fetchLoop_success outcome now (reorderSources sources last) last tracker s v hres hne

/-- C4 witness: the spec scenario [A fails, B fails, C succeeds with
47000] returns `("C", 47000)` and remembers C as preferred. -/
theorem get_btc_price_contract_witness :
    (["A", "B", "C"] : List String).Nodup
    ∧ (get_btc_price ["A", "B", "C"] abcOutcome none [] 1000).1 = ("C", 47000)
    ∧ (get_btc_price ["A", "B", "C"] abcOutcome none [] 1000).2.1 = some "C" := by
  have hnd : (["A", "B", "C"] : List String).Nodup := by decide
  have h := get_btc_price_contract ["A", "B", "C"] abcOutcome none [] 1000 hnd
  have hfirst : (firstEligibleSuccess abcOutcome [] 1000
      (reorderSources ["A", "B", "C"] none)).getD ("", 0) = ("C", 47000) := by
    simp [firstEligibleSuccess, reorderSources, backoffEligible, dictGet, abcOutcome]
  have hres := h.1.trans hfirst
  exact ⟨hnd, hres, (h.2 "C" 47000 hres (by decide)).1⟩

/-- C5: with an explicit positive retry budget n, `retry_operation`
invokes the operation at most n times; if the operation succeeds on
attempt k ≤ n after recoverable failures, exactly k invocations occur
and the call returns normally; if every attempt fails recoverably,
exactly n invocations occur and the fatal `ThreadError` naming the
n-attempt budget is raised. -/
theorem retry_attempts_bounds (op : Nat → OpOutcome) (n t mr rd : Nat) (hn : 0 < n) :
    (retry_operation op (some n) (some t) mr rd).2.1 ≤ n
    ∧ (∀ k, 0 < k → k ≤ n → (∀ i, i < k - 1 → Retryable (op i)) →
        op (k - 1) = OpOutcome.ok →
        (retry_operation op (some n) (some t) mr rd).1 = RetryResult.success
        ∧ (retry_operation op (some n) (some t) mr rd).2.1 = k)
    ∧ ((∀ i, i < n → Retryable (op i)) →
        (retry_operation op (some n) (some t) mr rd).1 = RetryResult.threadError n
        ∧ (retry_operation op (some n) (some t) mr rd).2.1 = n) := by
  have hpy : pyOr (some n) mr = n := by
    simp [pyOr, Nat.pos_iff_ne_zero.mp hn]
  refine ⟨?_, ?_, ?_⟩
  · have h := retryLoop_calls_le op n (n - 0) 0 rfl (Nat.zero_le n)
    simpa [retry_operation, hpy] using h
  · intro k hk hkn hfails hok
    have h := retryLoop_success op n (k - 1) 0
      (fun i hi hilt => hfails i (by omega))
      (by simpa using hok) (by omega)
    refine ⟨by simp [retry_operation, hpy, h], ?_⟩
    have : (retryLoop op n 0).2 = 0 + (k - 1) + 1 := by rw [h]
    simp only [retry_operation, hpy]
    omega
  · intro hall
    have h := retryLoop_exhaust op n hall (n - 0) 0 rfl (Nat.zero_le n)
    exact ⟨by simp [retry_operation, hpy, h], by simp [retry_operation, hpy, h]⟩

/-- C5 witness: an operation failing twice then succeeding under a
budget of 5 makes exactly 3 attempts and succeeds; an operation always
failing under a budget of 3 makes exactly 3 attempts and raises the
aggregate error naming 3. -/
theorem retry_attempts_bounds_witness :
    (retry_operation twiceFailOp (some 5) (some 1) 3 1).1 = RetryResult.success
    ∧ (retry_operation twiceFailOp (some 5) (some 1) 3 1).2.1 = 3
    ∧ (retry_operation alwaysFailOp (some 3) (some 1) 3 1).1 = RetryResult.threadError 3
    ∧ (retry_operation alwaysFailOp (some 3) (some 1) 3 1).2.1 = 3 := by
  have h1 := retry_attempts_bounds twiceFailOp 5 1 3 1 (by decide)
  have hs := h1.2.1 3 (by decide) (by decide) (by decide) (by decide)
  have h2 := retry_attempts_bounds alwaysFailOp 3 1 3 1 (by decide)
  have he := h2.2.2 (by decide)
  exact ⟨hs.1, hs.2, he.1, he.2⟩

/-- C6: only the two recoverable error kinds are retried; an operation
raising any other exception kind on attempt k+1 makes that exception
propagate immediately — exactly k+1 invocations, no further attempt. -/
theorem retry_nonretryable_propagates (op : Nat → OpOutcome) (n t mr rd k : Nat)
    (e : String) (hn : 0 < n) (hk : k < n)
    (hfails : ∀ i, i < k → Retryable (op i)) (he : op k = OpOutcome.otherError e) :
    (retry_operation op (some n) (some t) mr rd).1 = RetryResult.uncaught e
    ∧ (retry_operation op (some n) (some t) mr rd).2.1 = k + 1 := by
  have hpy : pyOr (some n) mr = n := by
    simp [pyOr, Nat.pos_iff_ne_zero.mp hn]
  have h := retryLoop_uncaught op n e k 0 (fun i hi hilt => hfails i (by omega))
    (by simpa using he) (by omega)
  exact ⟨by simp [retry_operation, hpy, h], by simp [retry_operation, hpy, h]⟩

/-- C6 witness: an operation failing recoverably once and then raising
an unhandled exception under a budget of 3 stops after 2 invocations
with that exception propagating. -/
theorem retry_nonretryable_propagates_witness :
    (retry_operation boomOp (some 3) (some 1) 3 1).1 = RetryResult.uncaught "boom"
    ∧ (retry_operation boomOp (some 3) (some 1) 3 1).2.1 = 2 := by
  have h := retry_nonretryable_propagates boomOp 3 1 3 1 1 "boom" (by decide) (by decide)
    (by decide) (by decide)
  exact ⟨h.1, by rw [h.2]⟩

/-- C7: after every call to `stop`, `get_state` returns STOPPED —
unconditionally, whether or not the execution context exited within the
join timeout (in the latter case only a warning is logged). -/
theorem stop_state_stopped (st : MThread) (aliveAfterJoin : Bool) :
    get_state (stop st aliveAfterJoin).1 = ThreadState.STOPPED
    ∧ (stop st aliveAfterJoin).2 = aliveAfterJoin :=
  ⟨rfl, rfl⟩

/-- C8: the computed block reward is 50 / 2^(h // 210000); height
840000 gives 3.125 and height 2100000 gives 0.048828125; the reward is
non-negative and non-increasing in the height; and the reward value
equals round(reward × price, 2). -/
theorem block_reward_props (h h1 h2 : Nat) (st : BtcState) (src : String) (p : ℚ)
    (hle : h1 ≤ h2) :
    blockRewardCalc h = 50 / 2 ^ (h / 210000)
    ∧ blockRewardCalc 840000 = 3.125
    ∧ blockRewardCalc 2100000 = 0.048828125
    ∧ 0 ≤ blockRewardCalc h
    ∧ blockRewardCalc h2 ≤ blockRewardCalc h1
    ∧ (get_btc_block_reward_value st (src, p) (some h)).block_reward_value
        = pyRound2 ((get_btc_block_reward_value st (src, p) (some h)).block_reward
            * (get_btc_block_reward_value st (src, p) (some h)).btc_price) := by
  refine ⟨rfl, by norm_num [blockRewardCalc], by norm_num [blockRewardCalc],
    by unfold blockRewardCalc; positivity, ?_, rfl⟩
  unfold blockRewardCalc
  have hd : h1 / 210000 ≤ h2 / 210000 := Nat.div_le_div_right hle
  have hp : (2 : ℚ) ^ (h1 / 210000) ≤ 2 ^ (h2 / 210000) := pow_le_pow_right₀ one_le_two hd
  gcongr

/-- C8 witness: instantiation at heights 0 and 210000 (one halving). -/
theorem block_reward_props_witness :
    (0 : Nat) ≤ 210000 ∧ blockRewardCalc 210000 ≤ blockRewardCalc 0 :=
  ⟨by decide, (block_reward_props 0 0 210000 sampleBtcState "X" 1 (by decide)).2.2.2.2.1⟩

/-- C9 (counterexample to the claim as stated): a decoded record that
does carry the ip field but with a falsy value (the empty string)
leaves the miner map unchanged — the code tests Python truthiness, not
field presence — whereas the claim requires the record to be stored
under that identifier. -/
theorem process_data_claim_counterexample :
    dictGet "ip" [("ip", JVal.str "")] = some (JVal.str "")
    ∧ process_data (some [("ip", JVal.str "")]) "2026-02-03 04:05:06" sampleMap = sampleMap
    ∧ pyDictGet (JVal.str "")
        (process_data (some [("ip", JVal.str "")]) "2026-02-03 04:05:06" sampleMap)
      = none :=
  ⟨rfl, rfl, rfl⟩

/-- C9 (amended): if decoding fails, or the decoded record's ip field
is absent or falsy (for instance the empty string), or its value is
unhashable (a JSON array or object, making the map assignment raise a
TypeError that the generic handler catches), the miner map is left
completely unchanged and the call returns without raising; otherwise
the record, with the receipt timestamp attached under UpdateTime,
wholesale replaces or creates the map entry whose key is Python-equal
to the ip value (True and 1 are the same key), and no entry under a
key not Python-equal to it is changed. -/
theorem process_data_amended (decoded : Option JsonObj) (ts : String) (m : MinerMap) :
    process_data none ts m = m
    ∧ (∀ r, decoded = some r →
        (dictGet "ip" r = none → process_data decoded ts m = m)
        ∧ (∀ ipv, dictGet "ip" r = some ipv →
            (jtruthy ipv = false → process_data decoded ts m = m)
            ∧ (jhashable ipv = false → process_data decoded ts m = m)
            ∧ (jtruthy ipv = true → jhashable ipv = true →
                (∀ k, pyKeyEq k ipv = true →
                    pyDictGet k (process_data decoded ts m)
                      = some (dictSet "UpdateTime" (JVal.str ts) r))
                ∧ (∀ k, pyKeyEq k ipv = false →
                    pyDictGet k (process_data decoded ts m) = pyDictGet k m)))) := by
  refine ⟨rfl, ?_⟩
  rintro r rfl
  refine ⟨fun hip => by simp [process_data, hip], ?_⟩
  intro ipv hip
  refine ⟨fun hf => by simp [process_data, hip, hf], ?_, ?_⟩
  · intro hh
    by_cases ht : jtruthy ipv = true
    · simp [process_data, hip, ht, hh]
    · have htf : jtruthy ipv = false := by
        revert ht; cases jtruthy ipv <;> simp
      simp [process_data, hip, htf]
  · intro ht hh
    constructor
    · intro k hk
      simp only [process_data, hip, ht, hh, if_true]
      exact pyDictGet_pyDictSet_eqkey k ipv _ m hk
    · intro k hk
      simp only [process_data, hip, ht, hh, if_true]
      exact pyDictGet_pyDictSet_nekey k ipv _ m hk

/-- C9 witness: a packet for miner 10.0.0.1 is stored wholesale with
its timestamp while the entry for 10.0.0.2 is untouched; a packet
whose ip is the boolean True overwrites the record stored under the
Python-equal key 1; a packet whose ip is a non-empty array (truthy but
unhashable) is dropped. -/
theorem process_data_amended_witness :
    pyDictGet (JVal.str "10.0.0.1")
        (process_data (some sampleRecord) "2026-02-03 04:05:06" sampleMap)
      = some (dictSet "UpdateTime" (JVal.str "2026-02-03 04:05:06") sampleRecord)
    ∧ pyDictGet (JVal.str "10.0.0.2")
        (process_data (some sampleRecord) "2026-02-03 04:05:06" sampleMap)
      = pyDictGet (JVal.str "10.0.0.2") sampleMap
    ∧ pyDictGet (JVal.num 1)
        (process_data (some boolIpRecord) "2026-02-03 04:05:06" numKeyMap)
      = some (dictSet "UpdateTime" (JVal.str "2026-02-03 04:05:06") boolIpRecord)
    ∧ process_data (some arrIpRecord) "2026-02-03 04:05:06" sampleMap = sampleMap := by
  have h1 := ((process_data_amended (some sampleRecord) "2026-02-03 04:05:06" sampleMap).2
    sampleRecord rfl).2 (JVal.str "10.0.0.1") rfl
  have h2 := h1.2.2 rfl rfl
  have h3 := ((process_data_amended (some boolIpRecord) "2026-02-03 04:05:06" numKeyMap).2
    boolIpRecord rfl).2 (JVal.bool true) rfl
  have h4 := h3.2.2 rfl rfl
  have h5 := ((process_data_amended (some arrIpRecord) "2026-02-03 04:05:06" sampleMap).2
    arrIpRecord rfl).2 (JVal.arr [JVal.num 1]) rfl
  exact ⟨h2.1 (JVal.str "10.0.0.1") rfl,
    h2.2 (JVal.str "10.0.0.2") rfl,
    h4.1 (JVal.num 1) rfl,
    h5.2.1 rfl⟩

/-- C10: passing an explicit retries=0 or timeout=0 silently selects
the instance defaults, because Python `or` treats 0 as absent; with
non-zero instance defaults no caller can obtain a zero retry budget or
a zero inter-retry delay. -/
theorem retry_zero_defaults (op : Nat → OpOutcome) (mr rd : Nat)
    (hmr : mr ≠ 0) (hrd : rd ≠ 0) :
    retry_operation op (some 0) (some 0) mr rd = retry_operation op none none mr rd
    ∧ (retry_operation op (some 0) (some 0) mr rd).2.2 = rd
    ∧ (∀ r : Option Nat, pyOr r mr ≠ 0) ∧ (∀ s : Option Nat, pyOr s rd ≠ 0) := by
  refine ⟨rfl, rfl, ?_, ?_⟩
  · intro r
    cases r with
    | none => exact hmr
    | some v =>
      by_cases hv : v = 0
      · simpa [pyOr, hv] using hmr
      · simp [pyOr, hv]
  · intro s
    cases s with
    | none => exact hrd
    | some v =>
      by_cases hv : v = 0
      · simpa [pyOr, hv] using hrd
      · simp [pyOr, hv]

/-- C10 witness: with instance defaults (3, 1), explicit zeros behave
exactly like omitted arguments. -/
theorem retry_zero_defaults_witness :
    (3 : Nat) ≠ 0 ∧ (1 : Nat) ≠ 0
    ∧ retry_operation alwaysFailOp (some 0) (some 0) 3 1
        = retry_operation alwaysFailOp none none 3 1
    ∧ pyOr (some 0) 3 = 3 := by
  have h := retry_zero_defaults alwaysFailOp 3 1 (by decide) (by decide)
  exact ⟨by decide, by decide, h.1, by decide⟩
